import Mathlib

/-!
Verification of the metrics-derivation and insight-generation pipeline of the
Nassau Candy product-line profitability dashboard (`src/app.py`).

The pandas/streamlit program is embedded shallowly:

* a dataframe row is a `Record`; the filtered dataframe is a `List Record`;
* pandas float arithmetic on derived columns is modelled by `PFloat`
  (a finite rational, `inf`, `-inf`, or `nan`), with numpy division
  semantics (`0/0 = nan`, `x/0 = ±inf`) and NaN-rejecting comparisons;
* `groupby(key)` is modelled by the list of distinct key values in
  ascending (code-point lexicographic) order, as pandas sorts group keys,
  together with the sublist of rows carrying each key;
* a group standard deviation (an irrational square root) is represented
  exactly by its radicand: `pstd` returns `some v` for the value `√v`,
  and `none` for pandas' NaN; a median of such values is represented by
  `some (a, b)` for `(√a + √b)/2`.

Sorting uses `List.insertionSort`, which is deterministic and stable; the
properties proved below do not depend on how pandas breaks ties between
equal sort keys (sums over tied entries are tie-order invariant).
-/

namespace NassauPipeline

/-! ### Lexicographic string order (pandas sorts group keys by code point) -/

/-- Lexicographic less-or-equal on character lists by code point. -/
def lexLe : List Char → List Char → Bool
  | [], _ => true
  | _ :: _, [] => false
  | a :: as, b :: bs => decide (a < b) || (decide (a = b) && lexLe as bs)

/-- Code-point lexicographic order on strings, as pandas sorts string keys. -/
def strLe (a b : String) : Bool := lexLe a.toList b.toList

/-- The ordering relation used to sort group keys. -/
def strLeRel : String → String → Prop := fun a b => strLe a b = true

instance : DecidableRel strLeRel := fun a b => inferInstanceAs (Decidable (strLe a b = true))

theorem lexLe_total : ∀ x y : List Char, lexLe x y = true ∨ lexLe y x = true
  | [], _ => Or.inl rfl
  | _ :: _, [] => Or.inr rfl
  | a :: as, b :: bs => by
    rcases lt_trichotomy a b with h | h | h
    · left; simp [lexLe, h]
    · rcases lexLe_total as bs with ih | ih
      · left; simp [lexLe, h, ih]
      · right; simp [lexLe, h.symm, ih]
    · right; simp [lexLe, h]

theorem lexLe_trans : ∀ x y z : List Char,
    lexLe x y = true → lexLe y z = true → lexLe x z = true
  | [], _, _, _, _ => rfl
  | _ :: _, [], _, h, _ => by simp [lexLe] at h
  | _ :: _, _ :: _, [], _, h => by simp [lexLe] at h
  | a :: as, b :: bs, c :: cs, h1, h2 => by
    simp only [lexLe, Bool.or_eq_true, Bool.and_eq_true, decide_eq_true_eq] at h1 h2 ⊢
    rcases h1 with h1 | ⟨rfl, h1⟩
    · rcases h2 with h2 | ⟨rfl, h2⟩
      · exact Or.inl (lt_trans h1 h2)
      · exact Or.inl h1
    · rcases h2 with h2 | ⟨rfl, h2⟩
      · exact Or.inl h2
      · exact Or.inr ⟨rfl, lexLe_trans as bs cs h1 h2⟩

theorem lexLe_antisymm : ∀ x y : List Char,
    lexLe x y = true → lexLe y x = true → x = y
  | [], [], _, _ => rfl
  | [], _ :: _, _, h => by simp [lexLe] at h
  | _ :: _, [], h, _ => by simp [lexLe] at h
  | a :: as, b :: bs, h1, h2 => by
    simp only [lexLe, Bool.or_eq_true, Bool.and_eq_true, decide_eq_true_eq] at h1 h2
    rcases h1 with h1 | ⟨rfl, h1⟩
    · rcases h2 with h2 | ⟨rfl, _⟩
      · exact absurd (lt_trans h1 h2) (lt_irrefl _)
      · exact absurd h1 (lt_irrefl _)
    · rcases h2 with h2 | ⟨_, h2⟩
      · exact absurd h2 (lt_irrefl _)
      · rw [lexLe_antisymm as bs h1 h2]

theorem strLe_toList_inj {a b : String} (h : a.toList = b.toList) : a = b :=
  String.ext h

instance : IsTotal String strLeRel := ⟨fun a b => lexLe_total a.toList b.toList⟩

instance : IsTrans String strLeRel :=
  ⟨fun a b c h1 h2 => lexLe_trans a.toList b.toList c.toList h1 h2⟩

instance : IsAntisymm String strLeRel :=
  ⟨fun a b h1 h2 => strLe_toList_inj (lexLe_antisymm a.toList b.toList h1 h2)⟩

/-! ### Pandas float values -/

/-- A pandas/numpy float value on a derived column: a finite rational, one of
the two infinities, or NaN. -/
inductive PFloat where
  | nan : PFloat
  | inf : PFloat
  | ninf : PFloat
  | fin (q : ℚ) : PFloat
deriving DecidableEq

/-- Numpy division of two finite values: `0/0 = nan`, `x/0 = ±inf` for
`x ≠ 0`, ordinary rational division otherwise. -/
def pdiv (a b : ℚ) : PFloat :=
  if b = 0 then
    if a = 0 then .nan
    else if 0 < a then .inf
    else .ninf
  else .fin (a / b)

/-- Multiplication of a pandas float by a finite constant (used for `* 100`). -/
def PFloat.scale (c : ℚ) : PFloat → PFloat
  | .nan => .nan
  | .inf => if 0 < c then .inf else if c < 0 then .ninf else .nan
  | .ninf => if 0 < c then .ninf else if c < 0 then .inf else .nan
  | .fin q => .fin (q * c)

/-- The `x < t` comparison against a finite threshold; any comparison with
NaN is false. -/
def PFloat.ltQ : PFloat → ℚ → Bool
  | .nan, _ => false
  | .inf, _ => false
  | .ninf, _ => true
  | .fin q, t => decide (q < t)

/-- Non-strict comparison of two pandas floats; comparisons with NaN are false. -/
def PFloat.leB : PFloat → PFloat → Bool
  | .nan, _ => false
  | _, .nan => false
  | .ninf, _ => true
  | _, .inf => true
  | .inf, _ => false
  | _, .ninf => false
  | .fin a, .fin b => decide (a ≤ b)

def PFloat.isNan : PFloat → Bool
  | .nan => true
  | _ => false

def PFloat.isFin : PFloat → Bool
  | .fin _ => true
  | _ => false

def PFloat.toQ : PFloat → Option ℚ
  | .fin q => some q
  | _ => none

/-- IEEE addition of two pandas floats (NaN propagates, `inf + (-inf) = nan`). -/
def PFloat.add : PFloat → PFloat → PFloat
  | .nan, _ => .nan
  | _, .nan => .nan
  | .inf, .ninf => .nan
  | .ninf, .inf => .nan
  | .inf, _ => .inf
  | _, .inf => .inf
  | .ninf, _ => .ninf
  | _, .ninf => .ninf
  | .fin a, .fin b => .fin (a + b)

/-- Mathematical sum of a list of extended values: an undefined (NaN) term
makes the whole sum undefined.  This is the Σ of the specification's
"Σ(Revenue Contribution %)" property, not a pandas call. -/
def sumPF (l : List PFloat) : PFloat := l.foldr PFloat.add (.fin 0)

/-! ### Records and the record filter (`src/app.py` lines 69-83) -/

/-- One row of the sales dataset (the required input columns). -/
structure Record where
  productName : String
  division : String
  date : ℤ
  sales : ℚ
  cost : ℚ
  units : ℚ
deriving DecidableEq

/-- The sidebar filter parameters: date range, selected divisions, and the
product-search text (`""` when the text box is empty). -/
structure FilterSpec where
  startDate : ℤ
  endDate : ℤ
  divisions : List String
  search : String
deriving DecidableEq

/-- Date-range predicate: `(Date >= start) & (Date <= end)`. -/
def datePred (s : FilterSpec) (r : Record) : Bool :=
  decide (s.startDate ≤ r.date) && decide (r.date ≤ s.endDate)

/-- Division predicate: `Division.isin(division)`. -/
def divPred (s : FilterSpec) (r : Record) : Bool :=
  s.divisions.contains r.division

/-- Whether the second list starts with the first list. -/
def headMatches : List Char → List Char → Bool
  | [], _ => true
  | _ :: _, [] => false
  | a :: as, b :: bs => decide (a = b) && headMatches as bs

/-- Whether the first list occurs contiguously inside the second. -/
def containsSub : List Char → List Char → Bool
  | pat, [] => pat.isEmpty
  | pat, c :: rest => headMatches pat (c :: rest) || containsSub pat rest

/-- Case-insensitive text predicate, modelling
`Product Name.str.contains(product_search, case=False)` for search strings
without regular-expression metacharacters (for those, `str.contains`
is case-insensitive substring containment). -/
def textPred (s : FilterSpec) (r : Record) : Bool :=
  containsSub (s.search.toList.map Char.toLower) (r.productName.toList.map Char.toLower)

/-- The filter block: date-range filter, then division filter, then — only
when the search text is non-empty (`if product_search:`) — the text filter.
The code defines no error path for an inverted date range. -/
def applyFilters (s : FilterSpec) (rs : List Record) : List Record :=
  let d1 := rs.filter (datePred s)
  let d2 := d1.filter (divPred s)
  if s.search = "" then d2 else d2.filter (textPred s)

/-! ### Per-record derived columns (`src/app.py` lines 88-112) -/

/-- Gross Profit = Sales - Cost. -/
def grossProfit (r : Record) : ℚ := r.sales - r.cost

/-- Gross Margin (%) = Gross Profit / Sales * 100 (numpy division). -/
def grossMargin (r : Record) : PFloat := (pdiv (grossProfit r) r.sales).scale 100

/-- Profit per Unit = Gross Profit / Units (numpy division). -/
def profitPerUnit (r : Record) : PFloat := pdiv (grossProfit r) r.units

/-- Total Sales over the filtered set. -/
def totalSales (rs : List Record) : ℚ := (rs.map Record.sales).sum

/-- Total (Gross) Profit over the filtered set. -/
def totalProfit (rs : List Record) : ℚ := (rs.map grossProfit).sum

/-- Revenue Contribution (%) = Sales / Total Sales * 100. -/
def revenueContribution (rs : List Record) (r : Record) : PFloat :=
  (pdiv r.sales (totalSales rs)).scale 100

/-- Profit Contribution (%) = Gross Profit / Total Profit * 100. -/
def profitContribution (rs : List Record) (r : Record) : PFloat :=
  (pdiv (grossProfit r) (totalProfit rs)).scale 100

/-- Risk Level: "High Risk" when Gross Margin (%) < threshold, else "Safe".
A NaN margin never compares below the threshold. -/
def riskLevel (thr : ℚ) (r : Record) : String :=
  if (grossMargin r).ltQ thr then "High Risk" else "Safe"

/-- The Revenue Contribution (%) column of the derived set. -/
def revenueContribs (rs : List Record) : List PFloat := rs.map (revenueContribution rs)

/-- The Profit Contribution (%) column of the derived set. -/
def profitContribs (rs : List Record) : List PFloat := rs.map (profitContribution rs)

/-! ### Grouping (`groupby`): distinct keys in sorted order, rows per key -/

/-- The distinct values of a key column, in ascending order: pandas
`groupby(key)` iterates group keys sorted. -/
def keysBy (f : Record → String) (rs : List Record) : List String :=
  List.insertionSort strLeRel (rs.map f).dedup

/-- The rows of a group: the sublist of records carrying key value `k`. -/
def groupOf (f : Record → String) (k : String) (rs : List Record) : List Record :=
  rs.filter fun r => decide (f r = k)

/-- Skip-NaN mean of a column, as pandas `Series.mean()`: NaN entries are
dropped; the mean of no surviving entries is NaN; an infinity dominates. -/
def pmean (l : List PFloat) : PFloat :=
  let kept := l.filter fun x => !x.isNan
  if kept.length = 0 then .nan
  else
    match sumPF kept with
    | .fin s => .fin (s / kept.length)
    | v => v

/-- Sample standard deviation of a column, as pandas `Series.std()`
(`ddof = 1`), represented exactly: `some v` stands for the value `√v`
(`v` is the sample variance), `none` for NaN.  NaN entries are skipped;
an infinite entry, or fewer than two surviving entries, gives NaN. -/
def pstd (l : List PFloat) : Option ℚ :=
  let kept := l.filter fun x => !x.isNan
  if kept.any fun x => !x.isFin then none
  else
    let qs := kept.filterMap PFloat.toQ
    if qs.length ≤ 1 then none
    else
      let n : ℚ := qs.length
      let m := qs.sum / n
      some ((qs.map fun x => (x - m) ^ 2).sum / (n - 1))

/-- Skip-NaN median of a list of represented standard deviations, as pandas
`Series.median()`: the defined values `√v` are sorted (by radicand, since
the square root is monotone) and `some (a, b)` represents the median
`(√a + √b)/2` (with `a = b` for an odd count); `none` is NaN (no defined
value). -/
def pmedianSqrt (vols : List (Option ℚ)) : Option (ℚ × ℚ) :=
  let vs := List.insertionSort (· ≤ ·) (vols.filterMap id)
  if vs.length = 0 then none
  else if vs.length % 2 = 1 then
    some (vs.getD (vs.length / 2) 0, vs.getD (vs.length / 2) 0)
  else
    some (vs.getD (vs.length / 2 - 1) 0, vs.getD (vs.length / 2) 0)

/-- Decides `√v > (√a + √b)/2` for nonnegative rationals, by squaring:
`2√v > √a + √b` iff `L := 4v - a - b > 0` and `L² > 4ab`. -/
def sqrtGtAvgSqrt (v a b : ℚ) : Bool :=
  decide (0 < 4 * v - a - b) && decide (4 * (a * b) < (4 * v - a - b) ^ 2)

/-- The Volatility Risk label: "High Volatility" when the group's Margin
Volatility exceeds the median volatility, else "Stable".  A NaN volatility
or a NaN median never compares greater, so such groups are "Stable". -/
def volRiskLabel (vol : Option ℚ) (med : Option (ℚ × ℚ)) : String :=
  match vol, med with
  | some v, some (a, b) => if sqrtGtAvgSqrt v a b then "High Volatility" else "Stable"
  | _, _ => "Stable"

/-- Margin Volatility of one product group: the standard deviation of
Gross Margin (%) over the group's rows (`src/app.py` lines 234-239). -/
def productVol (rs : List Record) (k : String) : Option ℚ :=
  pstd ((groupOf Record.productName k rs).map grossMargin)

/-- The Margin Volatility column of the product summary, one entry per
distinct product. -/
def volList (rs : List Record) : List (Option ℚ) :=
  (keysBy Record.productName rs).map (productVol rs)

/-- The median Margin Volatility (`src/app.py` line 247). -/
def medianVol (rs : List Record) : Option (ℚ × ℚ) := pmedianSqrt (volList rs)

/-- The per-group Gross Profit sums for a grouping key, keys in sorted
order (`groupby(key)["Gross Profit"].sum()`). -/
def groupProfitPairs (f : Record → String) (rs : List Record) : List (String × ℚ) :=
  (keysBy f rs).map fun k => (k, ((groupOf f k rs).map grossProfit).sum)

/-! ### Group summaries (`src/app.py` lines 219-251 and 278-286) -/

/-- One row of the product overview table. -/
structure ProductRow where
  productName : String
  sales : ℚ
  grossProfit : ℚ
  meanMargin : PFloat
  profitContributionPct : PFloat
  marginVolatility : Option ℚ
  volatilityRisk : String
deriving DecidableEq

/-- The product summary: per-product sums of Sales and Gross Profit, mean
Gross Margin (%), Profit Contribution (%) against the summed group profits,
Margin Volatility, and the Volatility Risk label. -/
def productSummary (rs : List Record) : List ProductRow :=
  (keysBy Record.productName rs).map fun k =>
    let g := groupOf Record.productName k rs
    { productName := k
      sales := (g.map Record.sales).sum
      grossProfit := (g.map grossProfit).sum
      meanMargin := pmean (g.map grossMargin)
      profitContributionPct :=
        (pdiv ((g.map grossProfit).sum)
          (((groupProfitPairs Record.productName rs).map Prod.snd).sum)).scale 100
      marginVolatility := productVol rs k
      volatilityRisk := volRiskLabel (productVol rs k) (medianVol rs) }

/-- One row of the division performance table. -/
structure DivisionRow where
  division : String
  sales : ℚ
  grossProfit : ℚ
  meanMargin : PFloat
deriving DecidableEq

/-- The division summary: per-division sums of Sales and Gross Profit and
mean Gross Margin (%). -/
def divisionSummary (rs : List Record) : List DivisionRow :=
  (keysBy Record.division rs).map fun k =>
    let g := groupOf Record.division k rs
    { division := k
      sales := (g.map Record.sales).sum
      grossProfit := (g.map grossProfit).sum
      meanMargin := pmean (g.map grossMargin) }

/-! ### Concentration analysis (`src/app.py` lines 150-161 and 328-345) -/

/-- The ordering used by `sort_values(ascending=False)` on the per-product
profit table: descending by Gross Profit. -/
def profDescRel : (String × ℚ) → (String × ℚ) → Prop := fun a b => b.2 ≤ a.2

instance : DecidableRel profDescRel := fun a b => inferInstanceAs (Decidable (b.2 ≤ a.2))

/-- The Pareto table rows: per-product Gross Profit, sorted descending. -/
def paretoPairs (rs : List Record) : List (String × ℚ) :=
  List.insertionSort profDescRel (groupProfitPairs Record.productName rs)

/-- The Gross Profit column of the Pareto table (descending). -/
def paretoVals (rs : List Record) : List ℚ := (paretoPairs rs).map Prod.snd

/-- Running sums with an accumulator (`cumsum`). -/
def cumsum (acc : ℚ) : List ℚ → List ℚ
  | [] => []
  | x :: xs => (acc + x) :: cumsum (acc + x) xs

/-- The Cumulative Profit column of the Pareto table. -/
def cumProfits (rs : List Record) : List ℚ := cumsum 0 (paretoVals rs)

/-- The grand total of the Pareto table's Gross Profit column. -/
def paretoTotal (rs : List Record) : ℚ := (paretoVals rs).sum

/-- The Cumulative % column: Cumulative Profit / total * 100 (numpy
division, so NaN when the total is zero). -/
def cumPcts (rs : List Record) : List PFloat :=
  (cumProfits rs).map fun c => (pdiv c (paretoTotal rs)).scale 100

/-- The Pareto tab's `top_20_count = int(len(pareto) * 0.2)`: Python `int`
truncates, and `int(n * 0.2) = n / 5` in integer arithmetic for every feasible
length `n`, so the count is `⌊n/5⌋` — zero when `n < 5`. -/
def paretoTopCount (rs : List Record) : ℕ := (paretoPairs rs).length / 5

/-- The Pareto tab's "Top 20% Product Profit Share". -/
def top20ProfitShare (rs : List Record) : PFloat :=
  (pdiv ((paretoVals rs).take (paretoTopCount rs)).sum (paretoTotal rs)).scale 100

/-- The insight block's `top_20_count = max(1, int(len(profit_summary) * 0.2))`
(`src/app.py` line 156): floor-based like the Pareto tab, but forced to at
least one entry. -/
def insightTopCount (rs : List Record) : ℕ :=
  max 1 ((groupProfitPairs Record.productName rs).length / 5)

/-- The insight block's `dependency_ratio`: the share of total Gross Profit
held by the first `insightTopCount` products of the descending ranking. -/
def dependencyRatio (rs : List Record) : PFloat :=
  (pdiv ((paretoVals rs).take (insightTopCount rs)).sum ((paretoVals rs).sum)).scale 100

/-! ### Automated insights (`src/app.py` lines 131-186) -/

/-- First key attaining the running maximum (pandas `idxmax`: first
occurrence of the maximum). -/
def idxmaxAux (bk : String) (bv : ℚ) : List (String × ℚ) → String
  | [] => bk
  | (k, v) :: rest => if bv < v then idxmaxAux k v rest else idxmaxAux bk bv rest

/-- Pandas `Series.idxmax` over a keyed rational series. -/
def idxmaxQ : List (String × ℚ) → Option String
  | [] => none
  | (k, v) :: rest => some (idxmaxAux k v rest)

/-- First key attaining the running minimum among non-NaN values (pandas
`idxmin` skips NaN). -/
def idxminAux (bk : String) (bv : PFloat) : List (String × PFloat) → String
  | [] => bk
  | (k, v) :: rest =>
    if v.leB bv && !(bv.leB v) then idxminAux k v rest else idxminAux bk bv rest

/-- Pandas `Series.idxmin` over a keyed extended-value series, skipping NaN. -/
def idxminPF (l : List (String × PFloat)) : Option String :=
  match l.filter fun p => !p.2.isNan with
  | [] => none
  | (k, v) :: rest => some (idxminAux k v rest)

/-- Best division: `groupby("Division")["Gross Profit"].sum().idxmax()`. -/
def bestDivision (rs : List Record) : Option String :=
  idxmaxQ (groupProfitPairs Record.division rs)

/-- Per-product mean Gross Margin (%), keys sorted. -/
def groupMeanMarginPairs (rs : List Record) : List (String × PFloat) :=
  (keysBy Record.productName rs).map fun k =>
    (k, pmean ((groupOf Record.productName k rs).map grossMargin))

/-- Worst-margin product:
`groupby("Product Name")["Gross Margin (%)"].mean().idxmin()`. -/
def worstMarginProduct (rs : List Record) : Option String :=
  idxminPF (groupMeanMarginPairs rs)

/-- High-risk count: distinct products having a record labelled
"High Risk". -/
def highRiskCount (thr : ℚ) (rs : List Record) : ℕ :=
  (((rs.filter fun r => decide (riskLevel thr r = "High Risk")).map
    Record.productName).dedup).length

/-- The scalar insights computed in the non-empty branch.  The average
Margin Volatility (a mean of square roots, irrational in general) is
carried by its exact operand: the list of represented per-product
volatilities whose skip-NaN mean is the reported value. -/
structure Insights where
  best : Option String
  worst : Option String
  riskCount : ℕ
  depRatio : PFloat
  avgVolOperand : List (Option ℚ)
deriving DecidableEq

/-- The outcome of the automated-insights block: either the computed
insights, or the distinct no-data state
(`st.warning("No data available for selected filters.")`). -/
inductive InsightResult where
  | noData : InsightResult
  | report (i : Insights) : InsightResult
deriving DecidableEq

/-- The automated-insights block (`if not filtered_df.empty: ... else ...`):
insights are computed only when the filtered set is non-empty; otherwise
the distinct no-data state is produced and none of them is computed. -/
def runInsights (thr : ℚ) (rs : List Record) : InsightResult :=
  if rs.isEmpty then .noData
  else .report
    { best := bestDivision rs
      worst := worstMarginProduct rs
      riskCount := highRiskCount thr rs
      depRatio := dependencyRatio rs
      avgVolOperand := volList rs }

/-! ### Helper lemmas -/

theorem applyFilters_mem {s : FilterSpec} {rs : List Record} {r : Record}
    (hr : r ∈ applyFilters s rs) :
    r ∈ rs ∧ datePred s r = true ∧ divPred s r = true ∧
      (s.search ≠ "" → textPred s r = true) := by
  unfold applyFilters at hr
  by_cases hs : s.search = ""
  · rw [if_pos hs] at hr
    simp only [List.mem_filter] at hr
    exact ⟨hr.1.1, hr.1.2, hr.2, fun hne => absurd hs hne⟩
  · rw [if_neg hs] at hr
    simp only [List.mem_filter] at hr
    exact ⟨hr.1.1.1, hr.1.1.2, hr.1.2, fun _ => hr.2⟩

theorem applyFilters_eq_self {s : FilterSpec} {l : List Record}
    (h : ∀ r ∈ l, datePred s r = true ∧ divPred s r = true ∧
      (s.search ≠ "" → textPred s r = true)) :
    applyFilters s l = l := by
  have h1 : l.filter (datePred s) = l := List.filter_eq_self.mpr fun r hr => (h r hr).1
  have h2 : l.filter (divPred s) = l := List.filter_eq_self.mpr fun r hr => (h r hr).2.1
  by_cases hs : s.search = ""
  · simp only [applyFilters, h1, h2, if_pos hs]
  · simp only [applyFilters, h1, h2, if_neg hs]
    exact List.filter_eq_self.mpr fun r hr => (h r hr).2.2 hs

theorem keysBy_nodup (f : Record → String) (rs : List Record) : (keysBy f rs).Nodup :=
  ((List.perm_insertionSort strLeRel _).nodup_iff).mpr (List.nodup_dedup _)

theorem mem_keysBy {f : Record → String} {rs : List Record} {r : Record} (hr : r ∈ rs) :
    f r ∈ keysBy f rs := by
  unfold keysBy
  rw [(List.perm_insertionSort strLeRel _).mem_iff, List.mem_dedup]
  exact List.mem_map_of_mem f hr

theorem sum_map_single (a : String) (c : ℚ) :
    ∀ ks : List String, ks.Nodup → a ∈ ks →
      (ks.map fun k => if a = k then c else 0).sum = c
  | [], _, ha => absurd ha (List.not_mem_nil a)
  | k :: ks, hnd, ha => by
    rcases List.mem_cons.mp ha with rfl | ha'
    · have hz : (ks.map fun k' => if a = k' then c else 0).sum = 0 := by
        apply List.sum_eq_zero
        intro x hx
        simp only [List.mem_map] at hx
        obtain ⟨k', hk', rfl⟩ := hx
        rw [if_neg]
        intro he
        exact (List.nodup_cons.mp hnd).1 (he ▸ hk')
      simp only [List.map_cons, List.sum_cons, if_true]
      rw [hz, add_zero]
    · have hne : a ≠ k := by
        intro he
        exact (List.nodup_cons.mp hnd).1 (he ▸ ha')
      simp only [List.map_cons, List.sum_cons, if_neg hne]
      rw [sum_map_single a c ks (List.nodup_cons.mp hnd).2 ha', zero_add]

theorem sum_map_add_split {α : Type} (l : List α) (u v : α → ℚ) :
    (l.map fun x => u x + v x).sum = (l.map u).sum + (l.map v).sum := by
  induction l with
  | nil => simp
  | cons a l ih => simp only [List.map_cons, List.sum_cons, ih]; ring

theorem sum_filter_key (f : Record → String) (g : Record → ℚ) :
    ∀ (rs : List Record) (ks : List String), ks.Nodup → (∀ r ∈ rs, f r ∈ ks) →
      (ks.map fun k => ((rs.filter fun x => decide (f x = k)).map g).sum).sum
        = (rs.map g).sum
  | [], ks, _, _ => by simp
  | r :: rs, ks, hnd, hcov => by
    have ih := sum_filter_key f g rs ks hnd fun x hx => hcov x (List.mem_cons_of_mem r hx)
    have hstep : ∀ k ∈ ks,
        ((((r :: rs).filter fun x => decide (f x = k)).map g).sum)
          = (if f r = k then g r else 0)
            + (((rs.filter fun x => decide (f x = k)).map g).sum) := by
      intro k _
      by_cases h : f r = k
      · simp [List.filter_cons, h]
      · simp [List.filter_cons, h]
    rw [List.map_congr_left hstep, sum_map_add_split,
      sum_map_single (f r) (g r) ks hnd (hcov r (List.mem_cons_self r rs)), ih]
    simp

/-! ### Claim theorems -/

/-- Claim C2 counterexample data: a record inside an inverted date range. -/
def rangeSpec : FilterSpec := ⟨5, 3, ["DivX"], ""⟩

def rangeData : List Record := [⟨"CandyA", "DivX", 4, 10, 5, 1⟩]

/-- Claim C2, as stated, is false: the filter block has no `InvalidRange`
error path.  With start date 5 after end date 3, on a non-empty dataset it
returns the empty record set — exactly the outcome the claim says is
signalled against. -/
theorem C2_counterexample :
    applyFilters rangeSpec rangeData = [] ∧ rangeData ≠ [] := by
  constructor
  · decide
  · intro h
    exact absurd h (by decide)

/-- Claim C2 (amended): for every filter specification whose start date is
after its end date, the Record Filter returns the empty record set — no
record can satisfy the date predicate — and no error is signalled. -/
theorem C2_amended_empty (s : FilterSpec) (rs : List Record)
    (h : s.endDate < s.startDate) : applyFilters s rs = [] := by
  have h1 : rs.filter (datePred s) = [] := by
    apply List.filter_eq_nil_iff.mpr
    intro r _ hr
    simp only [datePred, Bool.and_eq_true, decide_eq_true_eq] at hr
    exact absurd (le_trans hr.1 hr.2) (not_le.mpr h)
  by_cases hs : s.search = "" <;> simp [applyFilters, h1, hs]

/-- Witness for C2: the amended theorem evaluated at a concrete inverted
range. -/
theorem C2_amended_empty_witness :
    rangeSpec.endDate < rangeSpec.startDate ∧ applyFilters rangeSpec rangeData = [] :=
  ⟨by decide, C2_amended_empty rangeSpec rangeData (by decide)⟩

/-- Claim C10: a record with Sales = 0 and Cost = 0 has Gross Margin (%)
equal to the NaN sentinel (numpy `0/0`), and the risk classifier labels it
"Safe" for every margin threshold, because NaN never compares below the
threshold — the undefined margin is silently counted as not high-risk. -/
theorem C10_zero_sales_zero_cost_safe (thr : ℚ) (r : Record)
    (h1 : r.sales = 0) (h2 : r.cost = 0) :
    grossMargin r = .nan ∧ riskLevel thr r = "Safe" := by
  have hg : grossProfit r = 0 := by simp [grossProfit, h1, h2]
  have hm : grossMargin r = .nan := by simp [grossMargin, pdiv, h1, hg, PFloat.scale]
  exact ⟨hm, by simp [riskLevel, hm, PFloat.ltQ]⟩

/-- Witness for C10 at a concrete all-zero record and threshold 10. -/
theorem C10_zero_sales_zero_cost_safe_witness :
    grossMargin ⟨"CandyZ", "DivX", 0, 0, 0, 1⟩ = .nan ∧
      riskLevel 10 ⟨"CandyZ", "DivX", 0, 0, 0, 1⟩ = "Safe" :=
  C10_zero_sales_zero_cost_safe 10 ⟨"CandyZ", "DivX", 0, 0, 0, 1⟩ rfl rfl

/-- Claim C6: every record in the filter's output satisfies all active
predicates (date in range, division selected, case-insensitive substring
match when the search text is non-empty), the output is a subset of the
input, and filtering is idempotent. -/
theorem C6_filter_sound_idempotent (s : FilterSpec) (rs : List Record) :
    (∀ r ∈ applyFilters s rs,
      datePred s r = true ∧ divPred s r = true ∧
        (s.search ≠ "" → textPred s r = true)) ∧
    applyFilters s rs ⊆ rs ∧
    applyFilters s (applyFilters s rs) = applyFilters s rs := by
  refine ⟨fun r hr => (applyFilters_mem hr).2, fun r hr => (applyFilters_mem hr).1, ?_⟩
  exact applyFilters_eq_self fun r hr => (applyFilters_mem hr).2

/-- Witness for C6: idempotence evaluated at a concrete specification and
dataset. -/
theorem C6_filter_sound_idempotent_witness :
    applyFilters rangeSpec (applyFilters rangeSpec rangeData)
      = applyFilters rangeSpec rangeData :=
  (C6_filter_sound_idempotent rangeSpec rangeData).2.2

/-- Claim C5: for both grouping keys, the group summary's per-group Sales
totals sum to the ungrouped Total Sales over the filtered set, and likewise
for Gross Profit. -/
theorem C5_group_sums_consistent (rs : List Record) :
    ((productSummary rs).map ProductRow.sales).sum = totalSales rs ∧
    ((productSummary rs).map ProductRow.grossProfit).sum = totalProfit rs ∧
    ((divisionSummary rs).map DivisionRow.sales).sum = totalSales rs ∧
    ((divisionSummary rs).map DivisionRow.grossProfit).sum = totalProfit rs := by
  refine ⟨?_, ?_, ?_, ?_⟩ <;>
    · simp only [productSummary, divisionSummary, List.map_map, Function.comp, groupOf]
      first
      | exact sum_filter_key Record.productName Record.sales rs _
          (keysBy_nodup _ _) fun r hr => mem_keysBy hr
      | exact sum_filter_key Record.productName grossProfit rs _
          (keysBy_nodup _ _) fun r hr => mem_keysBy hr
      | exact sum_filter_key Record.division Record.sales rs _
          (keysBy_nodup _ _) fun r hr => mem_keysBy hr
      | exact sum_filter_key Record.division grossProfit rs _
          (keysBy_nodup _ _) fun r hr => mem_keysBy hr

/-- Claim C7: on an empty filtered set the insight block produces the
distinct no-data state and computes none of its insights, and every other
pipeline stage evaluates to a definite value (no division-by-zero crash:
the two empty-set shares are the NaN value numpy produces for `0.0/0.0`). -/
theorem C7_empty_no_data (s : FilterSpec) (data : List Record) (thr : ℚ)
    (h : applyFilters s data = []) :
    runInsights thr (applyFilters s data) = .noData ∧
    productSummary (applyFilters s data) = [] ∧
    divisionSummary (applyFilters s data) = [] ∧
    paretoPairs (applyFilters s data) = [] ∧
    cumPcts (applyFilters s data) = [] ∧
    top20ProfitShare (applyFilters s data) = .nan ∧
    dependencyRatio (applyFilters s data) = .nan ∧
    totalSales (applyFilters s data) = 0 ∧
    totalProfit (applyFilters s data) = 0 := by
  rw [h]
  refine ⟨rfl, rfl, rfl, rfl, rfl, ?_, ?_, rfl, rfl⟩ <;> decide

/-- Witness for C7: a concrete specification selecting no division empties
the concrete dataset. -/
theorem C7_empty_no_data_witness :
    runInsights 10 (applyFilters ⟨0, 10, [], ""⟩ rangeData) = .noData :=
  (C7_empty_no_data ⟨0, 10, [], ""⟩ rangeData 10 (by decide)).1

/-- The three-record example of the specification (section 8). -/
def exampleData : List Record :=
  [⟨"ProductA", "DivX", 0, 100, 60, 10⟩,
   ⟨"ProductB", "DivX", 0, 200, 50, 20⟩,
   ⟨"ProductA", "DivY", 0, 50, 50, 5⟩]

/-- A specification with no active filters on the example data. -/
def exampleSpec : FilterSpec := ⟨0, 0, ["DivX", "DivY"], ""⟩

/-- Claim C9: on the spec's three-record example with threshold 10% and no
active filters, the pipeline produces Total Sales 350, Total Profit 190,
ProductA aggregate Gross Profit 40, the "High Risk" label for the DivY
ProductA record (margin 0% < 10%), and best division DivX. -/
theorem C9_worked_example :
    applyFilters exampleSpec exampleData = exampleData ∧
    totalSales (applyFilters exampleSpec exampleData) = 350 ∧
    totalProfit (applyFilters exampleSpec exampleData) = 190 ∧
    ((groupOf Record.productName "ProductA"
      (applyFilters exampleSpec exampleData)).map grossProfit).sum = 40 ∧
    riskLevel 10 ⟨"ProductA", "DivY", 0, 50, 50, 5⟩ = "High Risk" ∧
    bestDivision (applyFilters exampleSpec exampleData) = some "DivX" := by
  have hf : applyFilters exampleSpec exampleData = exampleData := by decide
  rw [hf]
  refine ⟨rfl, ?_, ?_, ?_, ?_, ?_⟩
  · norm_num [totalSales, exampleData]
  · norm_num [totalProfit, exampleData, grossProfit]
  · have hg : groupOf Record.productName "ProductA" exampleData
        = [⟨"ProductA", "DivX", 0, 100, 60, 10⟩, ⟨"ProductA", "DivY", 0, 50, 50, 5⟩] := by
      decide
    rw [hg]
    norm_num [grossProfit]
  · norm_num [riskLevel, grossMargin, grossProfit, pdiv, PFloat.scale, PFloat.ltQ]
  · have hk : keysBy Record.division exampleData = ["DivX", "DivY"] := by decide
    have hgx : groupOf Record.division "DivX" exampleData
        = [⟨"ProductA", "DivX", 0, 100, 60, 10⟩, ⟨"ProductB", "DivX", 0, 200, 50, 20⟩] := by
      decide
    have hgy : groupOf Record.division "DivY" exampleData
        = [⟨"ProductA", "DivY", 0, 50, 50, 5⟩] := by decide
    have hp : groupProfitPairs Record.division exampleData = [("DivX", 190), ("DivY", 0)] := by
      simp only [groupProfitPairs, hk, List.map_cons, List.map_nil, hgx, hgy]
      norm_num [grossProfit]
    rw [bestDivision, hp]
    have : idxmaxAux "DivX" 190 [("DivY", 0)] = "DivX" := by
      norm_num [idxmaxAux]
    simp [idxmaxQ, this]

theorem sumPF_map_fin (l : List ℚ) : sumPF (l.map PFloat.fin) = .fin l.sum := by
  induction l with
  | nil => rfl
  | cons a l ih =>
    show PFloat.add (.fin a) (sumPF (l.map PFloat.fin)) = _
    rw [ih]
    show PFloat.fin (a + l.sum) = PFloat.fin (a :: l).sum
    rw [List.sum_cons]

theorem sum_map_linear (l : List ℚ) (T : ℚ) :
    (l.map fun s => s / T * 100).sum = l.sum / T * 100 := by
  induction l with
  | nil => simp
  | cons a l ih => simp only [List.map_cons, List.sum_cons, ih]; ring

/-- Claim C3 counterexample data: a non-empty filtered set whose Total
Sales is zero. -/
def zeroSalesData : List Record := [⟨"CandyB", "DivX", 0, 0, 0, 1⟩]

/-- Claim C3, as stated, is false: on a non-empty set whose Total Sales is
zero, every Revenue Contribution (%) is the NaN of `0/0`, so the column
does not sum to 100. -/
theorem C3_counterexample :
    zeroSalesData ≠ [] ∧ sumPF (revenueContribs zeroSalesData) ≠ .fin 100 := by
  have h : sumPF (revenueContribs zeroSalesData) = .nan := by
    norm_num [sumPF, revenueContribs, revenueContribution, zeroSalesData, totalSales,
      pdiv, PFloat.scale, PFloat.add]
  refine ⟨by decide, ?_⟩
  rw [h]
  decide

/-- Claim C3 (amended): whenever Total Sales is nonzero the Revenue
Contribution (%) column sums to exactly 100, and whenever Total Profit is
nonzero the Profit Contribution (%) column sums to exactly 100. -/
theorem C3_amended_contributions (rs : List Record) :
    (totalSales rs ≠ 0 → sumPF (revenueContribs rs) = .fin 100) ∧
    (totalProfit rs ≠ 0 → sumPF (profitContribs rs) = .fin 100) := by
  constructor
  · intro hT
    have hmap : revenueContribs rs
        = ((rs.map Record.sales).map fun s => s / totalSales rs * 100).map PFloat.fin := by
      simp only [revenueContribs, revenueContribution, List.map_map]
      apply List.map_congr_left
      intro r _
      simp [revenueContribution, Function.comp, pdiv, if_neg hT, PFloat.scale]
    rw [hmap, sumPF_map_fin, sum_map_linear]
    rw [show (rs.map Record.sales).sum = totalSales rs from rfl, div_self hT, one_mul]
  · intro hT
    have hmap : profitContribs rs
        = ((rs.map grossProfit).map fun s => s / totalProfit rs * 100).map PFloat.fin := by
      simp only [profitContribs, profitContribution, List.map_map]
      apply List.map_congr_left
      intro r _
      simp [profitContribution, Function.comp, pdiv, if_neg hT, PFloat.scale]
    rw [hmap, sumPF_map_fin, sum_map_linear]
    rw [show (rs.map grossProfit).sum = totalProfit rs from rfl, div_self hT, one_mul]

/-- Witness for C3: both amended sums evaluated on the three-record
example set. -/
theorem C3_amended_contributions_witness :
    sumPF (revenueContribs exampleData) = .fin 100 ∧
    sumPF (profitContribs exampleData) = .fin 100 :=
  ⟨(C3_amended_contributions exampleData).1 (by norm_num [totalSales, exampleData]),
   (C3_amended_contributions exampleData).2
     (by norm_num [totalProfit, exampleData, grossProfit])⟩

/-! ### Pareto cumulative sequence (claim C4) -/

/-- Spec-side rendering of the Cumulative % column as exact rationals; it
agrees with the code's `cumPcts` whenever the total is nonzero. -/
def cumPctsQ (rs : List Record) : List ℚ :=
  (cumProfits rs).map fun c => c / paretoTotal rs * 100

theorem cumsum_chain : ∀ (l : List ℚ), (∀ x ∈ l, 0 ≤ x) →
    ∀ acc : ℚ, List.Chain' (· ≤ ·) (cumsum acc l)
  | [], _, _ => List.chain'_nil
  | x :: xs, h, acc => by
    rw [cumsum]
    apply List.chain'_cons'.mpr
    refine ⟨?_, cumsum_chain xs (fun y hy => h y (List.mem_cons_of_mem x hy)) (acc + x)⟩
    intro y hy
    cases xs with
    | nil => simp [cumsum] at hy
    | cons z zs =>
      rw [cumsum] at hy
      simp only [List.head?_cons, Option.mem_def, Option.some.injEq] at hy
      have hz : 0 ≤ z := h z (by simp)
      rw [← hy]
      linarith

theorem cumsum_getLast? : ∀ (l : List ℚ) (acc : ℚ), l ≠ [] →
    (cumsum acc l).getLast? = some (acc + l.sum)
  | [], _, h => absurd rfl h
  | [x], acc, _ => by simp [cumsum]
  | x :: y :: ys, acc, _ => by
    have ih := cumsum_getLast? (y :: ys) (acc + x) (by simp)
    show ((acc + x) :: (acc + x + y) :: cumsum (acc + x + y) ys).getLast? = _
    rw [List.getLast?_cons_cons]
    rw [show ((acc + x + y) :: cumsum (acc + x + y) ys) = cumsum (acc + x) (y :: ys) from rfl,
      ih]
    simp only [List.sum_cons, Option.some.injEq]
    ring

/-- Claim C4 counterexample data: two products, one with negative Gross
Profit. -/
def negTailData : List Record :=
  [⟨"CandyA", "DivX", 0, 10, 0, 1⟩, ⟨"CandyB", "DivX", 0, 0, 5, 1⟩]

/-- Claim C4 counterexample data: one product with zero Gross Profit, so
the Pareto total is zero. -/
def zeroTotalData : List Record := [⟨"CandyC", "DivX", 0, 10, 10, 1⟩]

/-- Claim C4, as stated, is false: with per-product Gross Profits 10 and
-5 the Cumulative % column is [200, 100], which decreases; and with a
zero total the single Cumulative % entry is NaN, not 100. -/
theorem C4_counterexample :
    cumPcts negTailData = [.fin 200, .fin 100] ∧
    ¬ List.Chain' (fun x y => PFloat.leB x y = true) (cumPcts negTailData) ∧
    cumPcts zeroTotalData = [.nan] := by
  have hk : keysBy Record.productName negTailData = ["CandyA", "CandyB"] := by decide
  have hga : groupOf Record.productName "CandyA" negTailData
      = [⟨"CandyA", "DivX", 0, 10, 0, 1⟩] := by decide
  have hgb : groupOf Record.productName "CandyB" negTailData
      = [⟨"CandyB", "DivX", 0, 0, 5, 1⟩] := by decide
  have hp : groupProfitPairs Record.productName negTailData
      = [("CandyA", 10), ("CandyB", -5)] := by
    simp only [groupProfitPairs, hk, List.map_cons, List.map_nil, hga, hgb]
    norm_num [grossProfit]
  have hsort : paretoPairs negTailData = [("CandyA", 10), ("CandyB", -5)] := by
    rw [paretoPairs, hp]
    norm_num [List.insertionSort, List.orderedInsert, profDescRel]
  have h1 : cumPcts negTailData = [.fin 200, .fin 100] := by
    rw [cumPcts, cumProfits, paretoTotal, paretoVals, hsort]
    norm_num [cumsum, pdiv, PFloat.scale]
  have hk2 : keysBy Record.productName zeroTotalData = ["CandyC"] := by decide
  have hgc : groupOf Record.productName "CandyC" zeroTotalData
      = [⟨"CandyC", "DivX", 0, 10, 10, 1⟩] := by decide
  have hp2 : groupProfitPairs Record.productName zeroTotalData = [("CandyC", 0)] := by
    simp only [groupProfitPairs, hk2, List.map_cons, List.map_nil, hgc]
    norm_num [grossProfit]
  have h2 : cumPcts zeroTotalData = [.nan] := by
    rw [cumPcts, cumProfits, paretoTotal, paretoVals, paretoPairs, hp2]
    norm_num [List.insertionSort, List.orderedInsert, cumsum, pdiv, PFloat.scale]
  refine ⟨h1, ?_, h2⟩
  rw [h1]
  intro hchain
  have := (List.chain'_cons.mp hchain).1
  simp [PFloat.leB] at this
  linarith

/-- Claim C4 (amended): for every derived record set whose per-product
Gross Profits are all nonnegative and whose total Gross Profit is nonzero,
the Cumulative % column is finite, non-decreasing, and ends at exactly
100. -/
theorem C4_amended_pareto (rs : List Record)
    (hpos : ∀ v ∈ paretoVals rs, 0 ≤ v) (hT : paretoTotal rs ≠ 0) :
    List.Chain' (· ≤ ·) (cumPctsQ rs) ∧
    (cumPctsQ rs).getLast? = some 100 ∧
    cumPcts rs = (cumPctsQ rs).map PFloat.fin := by
  have hTpos : 0 < paretoTotal rs :=
    lt_of_le_of_ne (List.sum_nonneg hpos) (Ne.symm hT)
  refine ⟨?_, ?_, ?_⟩
  · apply List.chain'_map_of_chain' _ _ (cumsum_chain (paretoVals rs) hpos 0)
    intro a b hab
    have h1 : a / paretoTotal rs ≤ b / paretoTotal rs :=
      (div_le_div_iff_of_pos_right hTpos).mpr hab
    linarith
  · have hne : paretoVals rs ≠ [] := by
      intro h0
      exact hT (by simp [paretoTotal, h0])
    rw [cumPctsQ, List.getLast?_map, cumProfits, cumsum_getLast? (paretoVals rs) 0 hne]
    simp only [Option.map_some', Option.some.injEq, zero_add]
    rw [show (paretoVals rs).sum = paretoTotal rs from rfl, div_self hT, one_mul]
  · rw [cumPcts, cumPctsQ, List.map_map]
    apply List.map_congr_left
    intro c _
    simp [Function.comp, pdiv, if_neg hT, PFloat.scale]

/-- Witness for C4: the amended theorem evaluated on the three-record
example set (all per-product profits nonnegative, total 190). -/
theorem C4_amended_pareto_witness :
    List.Chain' (· ≤ ·) (cumPctsQ exampleData) ∧
    (cumPctsQ exampleData).getLast? = some 100 ∧
    cumPcts exampleData = (cumPctsQ exampleData).map PFloat.fin := by
  have hk : keysBy Record.productName exampleData = ["ProductA", "ProductB"] := by decide
  have hga : groupOf Record.productName "ProductA" exampleData
      = [⟨"ProductA", "DivX", 0, 100, 60, 10⟩, ⟨"ProductA", "DivY", 0, 50, 50, 5⟩] := by
    decide
  have hgb : groupOf Record.productName "ProductB" exampleData
      = [⟨"ProductB", "DivX", 0, 200, 50, 20⟩] := by decide
  have hp : groupProfitPairs Record.productName exampleData
      = [("ProductA", 40), ("ProductB", 150)] := by
    simp only [groupProfitPairs, hk, List.map_cons, List.map_nil, hga, hgb]
    norm_num [grossProfit]
  have hsort : paretoVals exampleData = [150, 40] := by
    rw [paretoVals, paretoPairs, hp]
    norm_num [List.insertionSort, List.orderedInsert, profDescRel]
  apply C4_amended_pareto
  · rw [hsort]
    intro v hv
    rcases List.mem_cons.mp hv with rfl | hv'
    · norm_num
    · rcases List.mem_cons.mp hv' with rfl | hv''
      · norm_num
      · simp at hv''
  · rw [paretoTotal, hsort]
    norm_num

/-! ### Concentration analysis (claim C1) -/

instance : IsTotal (String × ℚ) profDescRel := ⟨fun a b => le_total b.2 a.2⟩

instance : IsTrans (String × ℚ) profDescRel := ⟨fun _ _ _ h1 h2 => le_trans h2 h1⟩

/-- Spec-side top-fraction share: the combined Gross Profit of the `k`
profit-largest entities as a percentage of the total, phrased independently
of the code's descending sort (ascending sort, keep the last `k`). -/
def specTopShare (k : ℕ) (vals : List ℚ) : ℚ :=
  100 * ((List.insertionSort (· ≤ ·) vals).drop (vals.length - k)).sum / vals.sum

theorem paretoVals_eq_sortDesc (rs : List Record) :
    paretoVals rs
      = List.insertionSort (fun a b : ℚ => b ≤ a)
          ((groupProfitPairs Record.productName rs).map Prod.snd) := by
  haveI : IsTotal ℚ (fun a b : ℚ => b ≤ a) := ⟨fun a b => le_total b a⟩
  haveI : IsTrans ℚ (fun a b : ℚ => b ≤ a) := ⟨fun a b c h1 h2 => le_trans h2 h1⟩
  haveI : IsAntisymm ℚ (fun a b : ℚ => b ≤ a) := ⟨fun a b h1 h2 => le_antisymm h2 h1⟩
  apply List.eq_of_perm_of_sorted (r := fun a b : ℚ => b ≤ a)
  · exact ((List.perm_insertionSort profDescRel _).map Prod.snd).trans
      (List.perm_insertionSort _ _).symm
  · exact List.Pairwise.map Prod.snd (fun a b h => h)
      (List.sorted_insertionSort profDescRel _)
  · exact List.sorted_insertionSort _ _

theorem sortDesc_eq_reverse_sortAsc (vals : List ℚ) :
    List.insertionSort (fun a b : ℚ => b ≤ a) vals
      = (List.insertionSort (· ≤ ·) vals).reverse := by
  haveI : IsTotal ℚ (fun a b : ℚ => b ≤ a) := ⟨fun a b => le_total b a⟩
  haveI : IsTrans ℚ (fun a b : ℚ => b ≤ a) := ⟨fun a b c h1 h2 => le_trans h2 h1⟩
  haveI : IsAntisymm ℚ (fun a b : ℚ => b ≤ a) := ⟨fun a b h1 h2 => le_antisymm h2 h1⟩
  apply List.eq_of_perm_of_sorted (r := fun a b : ℚ => b ≤ a)
  · exact (List.perm_insertionSort _ _).trans
      ((List.reverse_perm _).trans (List.perm_insertionSort _ _)).symm
  · exact List.sorted_insertionSort _ _
  · exact List.pairwise_reverse.mpr (List.sorted_insertionSort _ _)

theorem take_reverse_eq_drop (l : List ℚ) (k : ℕ) (hk : k ≤ l.length) :
    l.reverse.take k = (l.drop (l.length - k)).reverse := by
  have hlen : (l.drop (l.length - k)).reverse.length = k := by
    rw [List.length_reverse, List.length_drop]
    omega
  conv_lhs => rw [← List.take_append_drop (l.length - k) l]
  rw [List.reverse_append, List.take_left' hlen]

theorem share_take_eq_spec (rs : List Record) (k : ℕ)
    (hk : k ≤ ((groupProfitPairs Record.productName rs).map Prod.snd).length)
    (hT : paretoTotal rs ≠ 0) :
    (pdiv ((paretoVals rs).take k).sum (paretoTotal rs)).scale 100
      = .fin (specTopShare k ((groupProfitPairs Record.productName rs).map Prod.snd)) := by
  have h1 : paretoVals rs
      = (List.insertionSort (· ≤ ·)
          ((groupProfitPairs Record.productName rs).map Prod.snd)).reverse := by
    rw [paretoVals_eq_sortDesc, sortDesc_eq_reverse_sortAsc]
  have hktr : k ≤ (List.insertionSort (· ≤ ·)
      ((groupProfitPairs Record.productName rs).map Prod.snd)).length := by
    rw [List.length_insertionSort]
    exact hk
  have htake : ((paretoVals rs).take k).sum
      = ((List.insertionSort (· ≤ ·)
          ((groupProfitPairs Record.productName rs).map Prod.snd)).drop
            (((groupProfitPairs Record.productName rs).map Prod.snd).length - k)).sum := by
    rw [h1, take_reverse_eq_drop _ k hktr, List.sum_reverse, List.length_insertionSort]
  have hsum : paretoTotal rs = ((groupProfitPairs Record.productName rs).map Prod.snd).sum := by
    rw [paretoTotal, paretoVals]
    exact ((List.perm_insertionSort profDescRel _).map Prod.snd).sum_eq
  rw [htake]
  unfold pdiv
  rw [if_neg hT]
  simp only [PFloat.scale, PFloat.fin.injEq]
  rw [specTopShare, hsum]
  ring

/-- Claim C1 counterexample data: a single product with positive profit. -/
def singleProductData : List Record := [⟨"CandyA", "DivX", 0, 10, 0, 1⟩]

/-- Claim C1, as stated, is false: on one product the claim demands
`ceil(0.2 × 1) = 1` entry (at least one since N > 0) and a share of 100%,
but the Pareto tab computes `int(1 * 0.2) = 0` entries and reports a 0%
share. -/
theorem C1_counterexample :
    paretoTopCount singleProductData = 0 ∧
    ¬ 1 ≤ paretoTopCount singleProductData ∧
    top20ProfitShare singleProductData = .fin 0 ∧
    top20ProfitShare singleProductData ≠ .fin 100 := by
  have h0 : paretoTopCount singleProductData = 0 := by decide
  have hk : keysBy Record.productName singleProductData = ["CandyA"] := by decide
  have hg : groupOf Record.productName "CandyA" singleProductData
      = [⟨"CandyA", "DivX", 0, 10, 0, 1⟩] := by decide
  have hp : groupProfitPairs Record.productName singleProductData = [("CandyA", 10)] := by
    simp only [groupProfitPairs, hk, List.map_cons, List.map_nil, hg]
    norm_num [grossProfit]
  have hshare : top20ProfitShare singleProductData = .fin 0 := by
    rw [top20ProfitShare, h0, paretoTotal, paretoVals, paretoPairs, hp]
    norm_num [List.insertionSort, List.orderedInsert, pdiv, PFloat.scale]
  refine ⟨h0, by omega, hshare, ?_⟩
  rw [hshare]
  intro h
  rw [PFloat.fin.injEq] at h
  norm_num at h

/-- Claim C1 (amended): for every derived record set with N > 0 ranked
products, the insight block takes the first `max(1, ⌊0.2 × N⌋)` entries of
the descending ranking (always at least one), while the Pareto tab takes
the first `⌊0.2 × N⌋` entries (zero entries when N < 5) — the counts are
floor-based, not ceil-based — and, whenever total Gross Profit is nonzero,
each reported share equals the combined Gross Profit of the taken entries
(the profit-largest ones) as a percentage of total Gross Profit. -/
theorem C1_amended_topshare (rs : List Record)
    (hN : 0 < (groupProfitPairs Record.productName rs).length)
    (hT : paretoTotal rs ≠ 0) :
    insightTopCount rs = max 1 ((groupProfitPairs Record.productName rs).length / 5) ∧
    1 ≤ insightTopCount rs ∧
    paretoTopCount rs = (groupProfitPairs Record.productName rs).length / 5 ∧
    dependencyRatio rs
      = .fin (specTopShare (insightTopCount rs)
          ((groupProfitPairs Record.productName rs).map Prod.snd)) ∧
    top20ProfitShare rs
      = .fin (specTopShare (paretoTopCount rs)
          ((groupProfitPairs Record.productName rs).map Prod.snd)) := by
  have hlen : ((groupProfitPairs Record.productName rs).map Prod.snd).length
      = (groupProfitPairs Record.productName rs).length := List.length_map _ _
  have hcount : paretoTopCount rs = (groupProfitPairs Record.productName rs).length / 5 := by
    rw [paretoTopCount, paretoPairs, List.length_insertionSort]
  refine ⟨rfl, le_max_left _ _, hcount, ?_, ?_⟩
  · have hk : insightTopCount rs
        ≤ ((groupProfitPairs Record.productName rs).map Prod.snd).length := by
      rw [hlen, insightTopCount]
      exact max_le hN (Nat.div_le_self _ _)
    exact share_take_eq_spec rs _ hk hT
  · have hk : paretoTopCount rs
        ≤ ((groupProfitPairs Record.productName rs).map Prod.snd).length := by
      rw [hlen, hcount]
      exact Nat.div_le_self _ _
    exact share_take_eq_spec rs _ hk hT

/-- The Pareto profit column of the example data, computed once. -/
theorem exampleData_paretoVals : paretoVals exampleData = [150, 40] := by
  have hk : keysBy Record.productName exampleData = ["ProductA", "ProductB"] := by decide
  have hga : groupOf Record.productName "ProductA" exampleData
      = [⟨"ProductA", "DivX", 0, 100, 60, 10⟩, ⟨"ProductA", "DivY", 0, 50, 50, 5⟩] := by
    decide
  have hgb : groupOf Record.productName "ProductB" exampleData
      = [⟨"ProductB", "DivX", 0, 200, 50, 20⟩] := by decide
  have hp : groupProfitPairs Record.productName exampleData
      = [("ProductA", 40), ("ProductB", 150)] := by
    simp only [groupProfitPairs, hk, List.map_cons, List.map_nil, hga, hgb]
    norm_num [grossProfit]
  rw [paretoVals, paretoPairs, hp]
  norm_num [List.insertionSort, List.orderedInsert, profDescRel]

/-- Witness for C1: the amended theorem evaluated on the two-product
example set. -/
theorem C1_amended_topshare_witness :
    1 ≤ insightTopCount exampleData ∧
    dependencyRatio exampleData
      = .fin (specTopShare (insightTopCount exampleData)
          ((groupProfitPairs Record.productName exampleData).map Prod.snd)) := by
  have hT : paretoTotal exampleData ≠ 0 := by
    rw [paretoTotal, exampleData_paretoVals]
    norm_num
  have h := C1_amended_topshare exampleData (by decide) hT
  exact ⟨h.2.1, h.2.2.2.1⟩

/-! ### Volatility sentinel handling (claim C8) -/

/-- The derived set with every record of one product removed (used to state
that a sentinel volatility is excluded, not coerced to zero). -/
def removeKey (f : Record → String) (p : String) (rs : List Record) : List Record :=
  rs.filter fun r => decide (¬ f r = p)

theorem pstd_singleton (m : PFloat) : pstd [m] = none := by
  cases m <;> rfl

theorem productVol_singleton {rs : List Record} {p : String}
    (h1 : (groupOf Record.productName p rs).length = 1) :
    productVol rs p = none := by
  obtain ⟨r, hr⟩ := List.length_eq_one.mp h1
  rw [productVol, hr, List.map_cons, List.map_nil]
  exact pstd_singleton _

theorem groupOf_removeKey {f : Record → String} {p q : String} (h : q ≠ p)
    (rs : List Record) :
    groupOf f q (removeKey f p rs) = groupOf f q rs := by
  unfold groupOf removeKey
  rw [List.filter_filter]
  apply List.filter_congr
  intro r _
  by_cases hr : f r = q
  · simp [hr, h]
  · simp [hr]

theorem keysBy_removeKey (f : Record → String) (p : String) (rs : List Record) :
    keysBy f (removeKey f p rs) = (keysBy f rs).filter fun k => decide (¬ k = p) := by
  apply List.eq_of_perm_of_sorted (r := strLeRel)
  · apply (List.perm_ext_iff_of_nodup (keysBy_nodup _ _)
      ((keysBy_nodup f rs).filter _)).mpr
    intro k
    constructor
    · intro hk
      have hk' : k ∈ (removeKey f p rs).map f := by
        rw [← List.mem_dedup]
        exact (List.perm_insertionSort strLeRel _).mem_iff.mp hk
      obtain ⟨r, hr, rfl⟩ := List.mem_map.mp hk'
      have hr' := List.mem_filter.mp hr
      have hfp : ¬ f r = p := by simpa using hr'.2
      apply List.mem_filter.mpr
      exact ⟨mem_keysBy hr'.1, by simpa using hfp⟩
    · intro hk
      have h1 := List.mem_filter.mp hk
      have hkp : ¬ k = p := by simpa using h1.2
      have h2 : k ∈ (rs.map f).dedup :=
        (List.perm_insertionSort strLeRel _).mem_iff.mp h1.1
      obtain ⟨r, hr, rfl⟩ := List.mem_map.mp (List.mem_dedup.mp h2)
      apply mem_keysBy (f := f)
      apply List.mem_filter.mpr
      exact ⟨hr, by simpa using hkp⟩
  · exact List.sorted_insertionSort strLeRel _
  · exact (List.sorted_insertionSort strLeRel _).filter _

theorem filterMap_eq_of_none {F : String → Option ℚ} {p : String} (hp : F p = none) :
    ∀ ks : List String,
      ks.filterMap F = (ks.filter fun k => decide (¬ k = p)).filterMap F
  | [] => rfl
  | k :: ks => by
    by_cases hk : k = p
    · subst hk
      simp [List.filterMap_cons, List.filter_cons, hp, filterMap_eq_of_none hp ks]
    · simp only [List.filterMap_cons, List.filter_cons]
      rw [if_pos (by simpa using hk)]
      rw [List.filterMap_cons]
      cases hF : F k <;> simp [filterMap_eq_of_none (p := p) hp ks]

theorem pmedianSqrt_congr {l l' : List (Option ℚ)}
    (h : l.filterMap id = l'.filterMap id) : pmedianSqrt l = pmedianSqrt l' := by
  unfold pmedianSqrt
  rw [h]

theorem volList_filterMap_removeKey (rs : List Record) (p : String)
    (h1 : (groupOf Record.productName p rs).length = 1) :
    (volList rs).filterMap id
      = (volList (removeKey Record.productName p rs)).filterMap id := by
  have hvolp : productVol rs p = none := productVol_singleton h1
  have hcomp : ∀ (l : List Record),
      (volList l).filterMap id = (keysBy Record.productName l).filterMap (productVol l) := by
    intro l
    rw [volList, List.filterMap_map]
    rfl
  rw [hcomp, hcomp]
  rw [filterMap_eq_of_none hvolp, keysBy_removeKey]
  apply List.filterMap_congr
  intro k hk
  have hkp : k ≠ p := by
    have := (List.mem_filter.mp hk).2
    simpa using this
  rw [productVol, productVol, groupOf_removeKey hkp]

/-- Claim C8: when some product group has exactly one record, its Margin
Volatility is the NaN sentinel, the median volatility is computed exactly
as it would be with that product absent (the sentinel is excluded, not
coerced to zero, and the total computation does not crash), and every
other product is classified against that same median. -/
theorem C8_singleton_volatility_excluded (rs : List Record) (p : String)
    (h1 : (groupOf Record.productName p rs).length = 1) :
    productVol rs p = none ∧
    medianVol rs = medianVol (removeKey Record.productName p rs) ∧
    ∀ q, q ≠ p →
      volRiskLabel (productVol rs q) (medianVol rs)
        = volRiskLabel (productVol (removeKey Record.productName p rs) q)
            (medianVol (removeKey Record.productName p rs)) := by
  have hmed : medianVol rs = medianVol (removeKey Record.productName p rs) :=
    pmedianSqrt_congr (volList_filterMap_removeKey rs p h1)
  refine ⟨productVol_singleton h1, hmed, ?_⟩
  intro q hq
  rw [productVol, productVol, groupOf_removeKey hq, hmed]

/-- Claim C8 witness data: CandyA has exactly one record, CandyB two. -/
def singletonGroupData : List Record :=
  [⟨"CandyA", "DivX", 0, 100, 60, 10⟩,
   ⟨"CandyB", "DivX", 0, 200, 50, 20⟩,
   ⟨"CandyB", "DivY", 0, 50, 40, 5⟩]

/-- Witness for C8 at the concrete three-record set. -/
theorem C8_singleton_volatility_excluded_witness :
    productVol singletonGroupData "CandyA" = none ∧
    medianVol singletonGroupData
      = medianVol (removeKey Record.productName "CandyA" singletonGroupData) ∧
    volRiskLabel (productVol singletonGroupData "CandyB") (medianVol singletonGroupData)
      = volRiskLabel
          (productVol (removeKey Record.productName "CandyA" singletonGroupData) "CandyB")
          (medianVol (removeKey Record.productName "CandyA" singletonGroupData)) := by
  have h := C8_singleton_volatility_excluded singletonGroupData "CandyA" (by decide)
  exact ⟨h.1, h.2.1, h.2.2 "CandyB" (by decide)⟩

end NassauPipeline
